import Mathlib

/-!
Verification of the context-window fitting module of the zoterolm plugin.

This file gives a shallow embedding of `src/modules/summaries/fitter.ts`
together with the token estimator `estimateTokenCount` it calls
(`Math.ceil(text.length / 4)`, also at `src/modules/reader/glossary.ts`),
and proves the specified properties of `fitSummariesInContext`,
`sortSummaries` and `calculateFitCapacity`.

Modelling conventions:
* JavaScript numbers used here are integer-valued throughout the module
  (token counts, lengths, epoch milliseconds), so they are embedded as `Int`
  (`Nat` where the source value is a length).
* The source resolves `modelId` to a model record via
  `getModelById(modelId)` / `getCurrentModel()`, which may yield no model;
  the embedding receives that resolved `Option ModelInfo` as a parameter.
  Likewise `getPref("maxContextTokens")` is passed in as `maxContextTokens`.
* `Summary.metadata.date` is an ISO-8601 string in the source and is only
  ever read through `new Date(date).getTime()`; the embedding carries that
  epoch-millisecond value directly as an `Int`.
* `Array.prototype.sort(cmp)` is required by ECMAScript 2019 to be stable;
  for a consistent comparator `cmp` its output is the unique list that is a
  permutation of the input, ordered by the relation `cmp a b <= 0`, with
  ties left in input order. `insertionSortBy r` below computes exactly that
  list for `r a b = (cmp a b <= 0)`, and the corresponding sortedness,
  permutation and stability lemmas are proved about it.
* `localeCompare` (used by the `alphabetical` strategy) is modelled as
  code-point comparison of the strings; no claim depends on the particular
  collation order, only on the sort being a permutation.
-/

namespace ZoteroLM

/-- Metadata attached to a summary (`SummaryMetadata` in
`src/modules/summaries/manager.ts`).  The fitter reads only `date`; the
source stores an ISO-8601 string (`new Date().toISOString()`) and the sort
uses `new Date(date).getTime()`, so the embedding carries that
epoch-millisecond value. Fields not read by the fitter (`model`, `prompt`,
`type`, `question`) are omitted. -/
structure SummaryMetadata where
  date : Int
deriving DecidableEq, Repr

/-- A collection summary (`Summary` in `src/modules/summaries/manager.ts`).
The fitter reads `content` and `metadata.date` only. -/
structure Summary where
  content : String
  metadata : SummaryMetadata
deriving DecidableEq, Repr

/-- An LLM model record (`ModelInfo` in `src/modules/llm/models.ts`).  The
fitter reads `contextWindow` only; `id`, `name`, `provider`,
`outputTokens`, `supportsVision` are omitted. -/
structure ModelInfo where
  contextWindow : Int
deriving DecidableEq, Repr

/-- `FitResult` from `fitter.ts`. -/
structure FitResult where
  included : List Summary
  excluded : List Summary
  totalTokens : Int
  maxTokens : Int
  promptTokens : Int
deriving DecidableEq, Repr

/-- `SortStrategy` from `fitter.ts`: `"date" | "alphabetical" | "size"`. -/
inductive SortStrategy where
  | date
  | alphabetical
  | size
deriving DecidableEq, Repr

/-- `estimateTokenCount(text) = Math.ceil(text.length / 4)`
(`src/modules/reader/glossary.ts`, also exported by the llm service).
On naturals, the ceiling of `n / 4` is `(n + 3) / 4`. -/
def estimateTokenCount (text : String) : Int :=
  ((text.length + 3) / 4 : Nat)

/-- One insertion step of a stable sort: place `x` immediately before the
first element `y` with `r x y` (i.e. `cmp x y <= 0`: `x` may stay in front
of `y`), so `x` lands after every earlier element it ties with. -/
def orderedInsertBy (r : Summary → Summary → Bool) (x : Summary) :
    List Summary → List Summary
  | [] => [x]
  | y :: ys => if r x y then x :: y :: ys else y :: orderedInsertBy r x ys

/-- Stable sort by the non-strict comparator relation `r` (see the module
docstring: this is the output mandated for `Array.prototype.sort` with a
consistent comparator `cmp` when `r a b = (cmp a b <= 0)`). -/
def insertionSortBy (r : Summary → Summary → Bool) :
    List Summary → List Summary
  | [] => []
  | x :: xs => orderedInsertBy r x (insertionSortBy r xs)

/-- The `"date"` comparator of `sortSummaries`, as the relation
`cmp a b <= 0` for `cmp = (a, b) => dateB - dateA` (most recent first). -/
def dateCompareLe (a b : Summary) : Bool :=
  decide (b.metadata.date - a.metadata.date ≤ 0)

/-- The `"alphabetical"` comparator of `sortSummaries`, as the relation
`cmp a b <= 0` for `cmp = (a, b) => a.content.localeCompare(b.content)`
(modelled as code-point order on the strings). -/
def alphabeticalCompareLe (a b : Summary) : Bool :=
  decide (a.content ≤ b.content)

/-- The `"size"` comparator of `sortSummaries`, as the relation
`cmp a b <= 0` for `cmp = (a, b) => a.content.length - b.content.length`
(smallest first). -/
def sizeCompareLe (a b : Summary) : Bool :=
  decide ((a.content.length : Int) - (b.content.length : Int) ≤ 0)

/-- `sortSummaries` from `fitter.ts`: copy the list and sort it by the
strategy's comparator. -/
def sortSummaries (summaries : List Summary) (strategy : SortStrategy) :
    List Summary :=
  match strategy with
  | .date => insertionSortBy dateCompareLe summaries
  | .alphabetical => insertionSortBy alphabeticalCompareLe summaries
  | .size => insertionSortBy sizeCompareLe summaries

/-- The `for (const summary of sortedSummaries)` loop of
`fitSummariesInContext`: walk the list once, include a summary when
`totalTokens + summaryTokens <= availableTokens` (adding its tokens to the
running total), exclude it otherwise.  Returns
`(included, excluded, totalTokens)`. -/
def fitLoop (availableTokens : Int) :
    List Summary → Int → List Summary × List Summary × Int
  | [], totalTokens => ([], [], totalTokens)
  | summary :: rest, totalTokens =>
    if totalTokens + estimateTokenCount summary.content ≤ availableTokens then
      let r := fitLoop availableTokens rest
        (totalTokens + estimateTokenCount summary.content)
      (summary :: r.1, r.2.1, r.2.2)
    else
      let r := fitLoop availableTokens rest totalTokens
      (r.1, summary :: r.2.1, r.2.2)

/-- `outputReserve = 4000` — the `// Reserve for response` constant in
`fitSummariesInContext`. -/
def outputReserve : Int := 4000

/-- `fitSummariesInContext(summaries, promptText, modelId?, sortStrategy)`
from `fitter.ts` (the source defaults `sortStrategy` to `"date"`; callers
here pass it explicitly).  `model` is the resolved
`modelId ? getModelById(modelId) : getCurrentModel()` and
`maxContextTokens` is `getPref("maxContextTokens")`. -/
def fitSummariesInContext (summaries : List Summary) (promptText : String)
    (model : Option ModelInfo) (maxContextTokens : Int)
    (sortStrategy : SortStrategy) : FitResult :=
  let effectiveMax :=
    match model with
    | some m => min m.contextWindow maxContextTokens
    | none => maxContextTokens
  let promptTokens := estimateTokenCount promptText
  let availableTokens := effectiveMax - promptTokens - outputReserve
  let sortedSummaries := sortSummaries summaries sortStrategy
  let r := fitLoop availableTokens sortedSummaries 0
  { included := r.1
    excluded := r.2.1
    totalTokens := r.2.2
    maxTokens := availableTokens
    promptTokens := promptTokens }

/-- Return type of `calculateFitCapacity`. -/
structure FitCapacity where
  canFit : Nat
  total : Nat
  percentage : Int
deriving DecidableEq, Repr

/-- `calculateFitCapacity(summaries, promptText, modelId?)` from
`fitter.ts`; it calls `fitSummariesInContext` with the default `"date"`
strategy.  JavaScript `Math.round(x)` is `⌊x + 1/2⌋`, which is Mathlib's
`round` on `ℚ`. -/
def calculateFitCapacity (summaries : List Summary) (promptText : String)
    (model : Option ModelInfo) (maxContextTokens : Int) : FitCapacity :=
  let result :=
    fitSummariesInContext summaries promptText model maxContextTokens .date
  { canFit := result.included.length
    total := summaries.length
    percentage :=
      if 0 < summaries.length then
        round ((result.included.length : ℚ) / summaries.length * 100)
      else 100 }

/-! ### Helper lemmas about the fitting loop -/

theorem estimateTokenCount_nonneg (text : String) :
    0 ≤ estimateTokenCount text :=
  Int.natCast_nonneg _

theorem fitLoop_totalTokens_eq (availableTokens : Int) (l : List Summary) :
    ∀ t : Int,
      (fitLoop availableTokens l t).2.2
        = t + ((fitLoop availableTokens l t).1.map
            (fun s => estimateTokenCount s.content)).sum := by
  induction l with
  | nil => intro t; simp [fitLoop]
  | cons s rest ih =>
    intro t
    by_cases h : t + estimateTokenCount s.content ≤ availableTokens
    · simp only [fitLoop, if_pos h, List.map_cons, List.sum_cons]
      rw [ih]
      ring
    · simpa only [fitLoop, if_neg h] using ih t

theorem fitLoop_lengths (availableTokens : Int) (l : List Summary) :
    ∀ t : Int,
      (fitLoop availableTokens l t).1.length
          + (fitLoop availableTokens l t).2.1.length = l.length := by
  induction l with
  | nil => intro t; simp [fitLoop]
  | cons s rest ih =>
    intro t
    by_cases h : t + estimateTokenCount s.content ≤ availableTokens
    · simp only [fitLoop, if_pos h, List.length_cons]
      have := ih (t + estimateTokenCount s.content)
      omega
    · simp only [fitLoop, if_neg h, List.length_cons]
      have := ih t
      omega

theorem fitLoop_totalTokens_le (availableTokens : Int) (l : List Summary) :
    ∀ t : Int, t ≤ availableTokens →
      (fitLoop availableTokens l t).2.2 ≤ availableTokens := by
  induction l with
  | nil => intro t ht; simpa [fitLoop] using ht
  | cons s rest ih =>
    intro t ht
    by_cases h : t + estimateTokenCount s.content ≤ availableTokens
    · simpa only [fitLoop, if_pos h] using ih _ h
    · simpa only [fitLoop, if_neg h] using ih t ht

theorem fitLoop_of_available_lt (availableTokens : Int) (l : List Summary) :
    ∀ t : Int, availableTokens < t →
      fitLoop availableTokens l t = ([], l, t) := by
  induction l with
  | nil => intro t _; rfl
  | cons s rest ih =>
    intro t ht
    have hs := estimateTokenCount_nonneg s.content
    have h : ¬ t + estimateTokenCount s.content ≤ availableTokens := by omega
    simp only [fitLoop, if_neg h, ih t ht]

theorem fitLoop_included_sublist (availableTokens : Int) (l : List Summary) :
    ∀ t : Int, (fitLoop availableTokens l t).1.Sublist l := by
  induction l with
  | nil => intro t; simp [fitLoop]
  | cons s rest ih =>
    intro t
    by_cases h : t + estimateTokenCount s.content ≤ availableTokens
    · simpa only [fitLoop, if_pos h] using (ih _).cons₂ s
    · simpa only [fitLoop, if_neg h] using (ih t).cons s

theorem fitLoop_excluded_sublist (availableTokens : Int) (l : List Summary) :
    ∀ t : Int, (fitLoop availableTokens l t).2.1.Sublist l := by
  induction l with
  | nil => intro t; simp [fitLoop]
  | cons s rest ih =>
    intro t
    by_cases h : t + estimateTokenCount s.content ≤ availableTokens
    · simpa only [fitLoop, if_pos h] using (ih _).cons s
    · simpa only [fitLoop, if_neg h] using (ih t).cons₂ s

/-! ### Helper lemmas about the stable sort -/

theorem orderedInsertBy_perm (r : Summary → Summary → Bool) (x : Summary)
    (l : List Summary) : (orderedInsertBy r x l).Perm (x :: l) := by
  induction l with
  | nil => exact List.Perm.refl _
  | cons y ys ih =>
    simp only [orderedInsertBy]
    by_cases h : r x y
    · simp [h]
    · simp only [if_neg h]
      exact (ih.cons y).trans (List.Perm.swap x y ys)

theorem insertionSortBy_perm (r : Summary → Summary → Bool)
    (l : List Summary) : (insertionSortBy r l).Perm l := by
  induction l with
  | nil => exact List.Perm.refl _
  | cons x xs ih =>
    exact (orderedInsertBy_perm r x (insertionSortBy r xs)).trans (ih.cons x)

theorem sortSummaries_perm (summaries : List Summary)
    (strategy : SortStrategy) :
    (sortSummaries summaries strategy).Perm summaries := by
  cases strategy <;> exact insertionSortBy_perm _ summaries

theorem mem_orderedInsertBy (r : Summary → Summary → Bool) (x z : Summary)
    (l : List Summary) :
    z ∈ orderedInsertBy r x l ↔ z = x ∨ z ∈ l := by
  rw [(orderedInsertBy_perm r x l).mem_iff, List.mem_cons]

theorem orderedInsertBy_pairwise (r : Summary → Summary → Bool)
    (htot : ∀ a b, r a b = false → r b a = true)
    (htrans : ∀ a b c, r a b = true → r b c = true → r a c = true)
    (x : Summary) (l : List Summary)
    (hl : l.Pairwise (fun a b => r a b = true)) :
    (orderedInsertBy r x l).Pairwise (fun a b => r a b = true) := by
  induction l with
  | nil => simp [orderedInsertBy]
  | cons y ys ih =>
    rw [List.pairwise_cons] at hl
    obtain ⟨hy, hys⟩ := hl
    simp only [orderedInsertBy]
    by_cases h : r x y
    · rw [if_pos h, List.pairwise_cons]
      refine ⟨?_, List.pairwise_cons.mpr ⟨hy, hys⟩⟩
      intro z hz
      rcases List.mem_cons.mp hz with hz | hz
      · exact hz ▸ h
      · exact htrans x y z h (hy z hz)
    · rw [if_neg h, List.pairwise_cons]
      refine ⟨?_, ih hys⟩
      intro z hz
      rcases (mem_orderedInsertBy r x z ys).mp hz with hz | hz
      · exact hz ▸ htot x y (Bool.not_eq_true _ ▸ eq_false_of_ne_true h)
      · exact hy z hz

theorem insertionSortBy_pairwise (r : Summary → Summary → Bool)
    (htot : ∀ a b, r a b = false → r b a = true)
    (htrans : ∀ a b c, r a b = true → r b c = true → r a c = true)
    (l : List Summary) :
    (insertionSortBy r l).Pairwise (fun a b => r a b = true) := by
  induction l with
  | nil => simp [insertionSortBy]
  | cons x xs ih =>
    exact orderedInsertBy_pairwise r htot htrans x _ ih

theorem dateCompareLe_total (a b : Summary) :
    dateCompareLe a b = false → dateCompareLe b a = true := by
  simp only [dateCompareLe, decide_eq_false_iff_not, decide_eq_true_eq]
  omega

theorem dateCompareLe_trans (a b c : Summary) :
    dateCompareLe a b = true → dateCompareLe b c = true →
      dateCompareLe a c = true := by
  simp only [dateCompareLe, decide_eq_true_eq]
  omega

/-- Among summaries with any one fixed `date`, sorting by the `date`
strategy preserves the input order (stability of the sort). -/
theorem orderedInsertBy_date_filter_eq (x : Summary) (d : Int)
    (hx : x.metadata.date = d) (l : List Summary) :
    (orderedInsertBy dateCompareLe x l).filter
        (fun s => s.metadata.date == d)
      = x :: l.filter (fun s => s.metadata.date == d) := by
  induction l with
  | nil => simp [orderedInsertBy, List.filter, hx]
  | cons y ys ih =>
    simp only [orderedInsertBy]
    by_cases h : dateCompareLe x y
    · rw [if_pos h, List.filter_cons, List.filter_cons]
      simp [hx]
    · have hy : ¬ y.metadata.date = d := by
        simp only [dateCompareLe, decide_eq_true_eq] at h
        omega
      rw [if_neg h, List.filter_cons, List.filter_cons]
      simp only [beq_iff_eq, hy]
      simpa [hy] using ih

theorem orderedInsertBy_date_filter_ne (x : Summary) (d : Int)
    (hx : ¬ x.metadata.date = d) (l : List Summary) :
    (orderedInsertBy dateCompareLe x l).filter
        (fun s => s.metadata.date == d)
      = l.filter (fun s => s.metadata.date == d) := by
  induction l with
  | nil => simp [orderedInsertBy, List.filter_cons, hx]
  | cons y ys ih =>
    simp only [orderedInsertBy]
    by_cases h : dateCompareLe x y
    · rw [if_pos h]
      simp [List.filter_cons, hx]
    · rw [if_neg h, List.filter_cons, List.filter_cons]
      rw [ih]

theorem sortSummaries_date_filter (summaries : List Summary) (d : Int) :
    (sortSummaries summaries .date).filter (fun s => s.metadata.date == d)
      = summaries.filter (fun s => s.metadata.date == d) := by
  show (insertionSortBy dateCompareLe summaries).filter _ = _
  induction summaries with
  | nil => rfl
  | cons x xs ih =>
    simp only [insertionSortBy]
    by_cases hx : x.metadata.date = d
    · rw [orderedInsertBy_date_filter_eq x d hx, ih, List.filter_cons]
      simp [hx]
    · rw [orderedInsertBy_date_filter_ne x d hx, ih, List.filter_cons]
      simp [hx]

/-- Shared partition lemma: each candidate lands in exactly one of
`included` and `excluded`. -/
theorem fit_lengths_eq (summaries : List Summary) (promptText : String)
    (model : Option ModelInfo) (maxContextTokens : Int)
    (strategy : SortStrategy) :
    (fitSummariesInContext summaries promptText model maxContextTokens
        strategy).included.length
      + (fitSummariesInContext summaries promptText model maxContextTokens
          strategy).excluded.length
      = summaries.length := by
  simp only [fitSummariesInContext]
  rw [fitLoop_lengths]
  exact (sortSummaries_perm summaries strategy).length_eq

/-! ### Concrete sample inputs -/

/-- 40-character content (10 tokens), most recent date. -/
def sampleFirst : Summary := ⟨String.mk (List.replicate 40 'a'), ⟨3000⟩⟩

/-- 88-character content (22 tokens), middle date: skipped by the greedy
walk with 30 available tokens. -/
def sampleLarger : Summary := ⟨String.mk (List.replicate 88 'a'), ⟨2000⟩⟩

/-- 28-character content (7 tokens), oldest date: still included after the
larger candidate was skipped. -/
def sampleSmaller : Summary := ⟨String.mk (List.replicate 28 'a'), ⟨1000⟩⟩

/-- 40-character content (10 tokens) dated 2024-01-01T00:00:00Z. -/
def sampleJan2024 : Summary :=
  ⟨String.mk (List.replicate 40 'a'), ⟨1704067200000⟩⟩

/-- 40-character content (10 tokens) dated 2024-06-01T00:00:00Z. -/
def sampleJun2024 : Summary :=
  ⟨String.mk (List.replicate 40 'b'), ⟨1717200000000⟩⟩

/-- 40-character content (10 tokens) dated 2023-01-01T00:00:00Z. -/
def sampleJan2023 : Summary :=
  ⟨String.mk (List.replicate 40 'c'), ⟨1672531200000⟩⟩

/-! ### The claimed properties -/

/-- C1 (counterexample): the spec's invariant
`promptTokens + totalTokensIncluded <= maxAvailableTokens` fails on the
code even with `maxAvailableTokens > 0`: one 20-character candidate
(5 tokens), a 4-character prompt (1 token) and `maxContextTokens = 4006`
give `maxAvailableTokens = 5`, the candidate is included
(`totalTokensIncluded = 5`), and `1 + 5 > 5`. -/
theorem fit_prompt_plus_total_can_exceed_maxTokens :
    0 < (fitSummariesInContext [⟨"12345678901234567890", ⟨0⟩⟩] "abcd" none
        4006 .date).maxTokens
    ∧ ¬ ((fitSummariesInContext [⟨"12345678901234567890", ⟨0⟩⟩] "abcd" none
          4006 .date).promptTokens
        + (fitSummariesInContext [⟨"12345678901234567890", ⟨0⟩⟩] "abcd" none
            4006 .date).totalTokens
        ≤ (fitSummariesInContext [⟨"12345678901234567890", ⟨0⟩⟩] "abcd" none
            4006 .date).maxTokens) := by
  decide

/-- C1 (amended): `maxAvailableTokens` is already net of the prompt, so the
invariant that holds is `totalTokensIncluded <= maxAvailableTokens`,
whenever `maxAvailableTokens >= 0`. -/
theorem fit_totalTokens_le_maxTokens_of_nonneg (summaries : List Summary)
    (promptText : String) (model : Option ModelInfo)
    (maxContextTokens : Int) (strategy : SortStrategy)
    (h : 0 ≤ (fitSummariesInContext summaries promptText model
        maxContextTokens strategy).maxTokens) :
    (fitSummariesInContext summaries promptText model maxContextTokens
        strategy).totalTokens
      ≤ (fitSummariesInContext summaries promptText model maxContextTokens
          strategy).maxTokens := by
  simp only [fitSummariesInContext] at h ⊢
  exact fitLoop_totalTokens_le _ _ 0 h

/-- C1 (witness): the amended invariant at a concrete call. -/
theorem fit_totalTokens_le_maxTokens_of_nonneg_witness :
    (fitSummariesInContext [] "" none 4000 .date).totalTokens
      ≤ (fitSummariesInContext [] "" none 4000 .date).maxTokens :=
  fit_totalTokens_le_maxTokens_of_nonneg [] "" none 4000 .date (by decide)

/-- C2: `totalTokens` is the sum of the estimated token counts of the
included candidates, and each step of the walk includes the candidate
exactly when `runningTotal + tokens <= available` (the test is `<=`, not
`<`), adding its tokens to the running total only on inclusion. -/
theorem fit_totalTokens_eq_sum_and_inclusion_test :
    (∀ (summaries : List Summary) (promptText : String)
        (model : Option ModelInfo) (maxContextTokens : Int)
        (strategy : SortStrategy),
      ((fitSummariesInContext summaries promptText model maxContextTokens
          strategy).included.map
            (fun s => estimateTokenCount s.content)).sum
        = (fitSummariesInContext summaries promptText model maxContextTokens
            strategy).totalTokens)
    ∧ (∀ (availableTokens totalTokens : Int) (summary : Summary)
          (rest : List Summary),
        fitLoop availableTokens (summary :: rest) totalTokens
          = if totalTokens + estimateTokenCount summary.content
                ≤ availableTokens then
              (summary :: (fitLoop availableTokens rest
                  (totalTokens + estimateTokenCount summary.content)).1,
                (fitLoop availableTokens rest
                  (totalTokens + estimateTokenCount summary.content)).2.1,
                (fitLoop availableTokens rest
                  (totalTokens + estimateTokenCount summary.content)).2.2)
            else
              ((fitLoop availableTokens rest totalTokens).1,
                summary :: (fitLoop availableTokens rest totalTokens).2.1,
                (fitLoop availableTokens rest totalTokens).2.2)) := by
  constructor
  · intro summaries promptText model maxContextTokens strategy
    simp only [fitSummariesInContext]
    rw [fitLoop_totalTokens_eq, zero_add]
  · intro availableTokens totalTokens summary rest
    by_cases h : totalTokens + estimateTokenCount summary.content
        ≤ availableTokens
    · simp only [fitLoop, if_pos h]
    · simp only [fitLoop, if_neg h]

/-- C3 (counterexample): when `maxAvailableTokens` is exactly `0`, a
zero-length candidate (0 tokens) passes the `0 + 0 <= 0` test and is
included, so "`maxAvailableTokens <= 0` implies `included` is empty" fails
at the boundary. -/
theorem fit_zero_available_includes_zero_token_summary :
    (fitSummariesInContext [⟨"", ⟨0⟩⟩] "" none 4000 .date).maxTokens ≤ 0
    ∧ (fitSummariesInContext [⟨"", ⟨0⟩⟩] "" none 4000 .date).included
        ≠ [] := by
  decide

/-- C3 (amended): when `maxAvailableTokens < 0` every candidate is
excluded and `included` is empty; at `maxAvailableTokens = 0` candidates
estimated at 0 tokens are still included. -/
theorem fit_included_empty_of_maxTokens_neg (summaries : List Summary)
    (promptText : String) (model : Option ModelInfo)
    (maxContextTokens : Int) (strategy : SortStrategy)
    (h : (fitSummariesInContext summaries promptText model maxContextTokens
        strategy).maxTokens < 0) :
    (fitSummariesInContext summaries promptText model maxContextTokens
        strategy).included = []
    ∧ (fitSummariesInContext summaries promptText model maxContextTokens
        strategy).excluded.length = summaries.length := by
  simp only [fitSummariesInContext] at h ⊢
  rw [fitLoop_of_available_lt _ _ 0 h]
  exact ⟨rfl, (sortSummaries_perm summaries strategy).length_eq⟩

/-- C3 (witness): the amended statement at a concrete call with
`maxAvailableTokens = -4000`. -/
theorem fit_included_empty_of_maxTokens_neg_witness :
    (fitSummariesInContext [⟨"x", ⟨0⟩⟩] "" none 0 .date).included = []
    ∧ (fitSummariesInContext [⟨"x", ⟨0⟩⟩] "" none 0 .date).excluded.length
        = 1 :=
  fit_included_empty_of_maxTokens_neg [⟨"x", ⟨0⟩⟩] "" none 0 .date
    (by decide)

/-- C4: the walk is one forward pass over the sorted list — `included` and
`excluded` are both order-preserving sublists of it, and excluded
candidates are never revisited.  The greedy policy can leave budget
unused: with candidates of 10, 22 and 7 tokens and 30 available, the
22-token candidate is skipped while the later 7-token one is included,
giving `totalTokens = 17` although the skipped candidate plus the smaller
one (29 tokens) would have fit. -/
theorem fit_single_pass_greedy_suboptimal :
    (∀ (summaries : List Summary) (promptText : String)
        (model : Option ModelInfo) (maxContextTokens : Int)
        (strategy : SortStrategy),
      (fitSummariesInContext summaries promptText model maxContextTokens
          strategy).included.Sublist (sortSummaries summaries strategy)
      ∧ (fitSummariesInContext summaries promptText model maxContextTokens
          strategy).excluded.Sublist (sortSummaries summaries strategy))
    ∧ ((fitSummariesInContext [sampleFirst, sampleLarger, sampleSmaller] ""
          none 4030 .date).included = [sampleFirst, sampleSmaller]
      ∧ (fitSummariesInContext [sampleFirst, sampleLarger, sampleSmaller] ""
          none 4030 .date).excluded = [sampleLarger]
      ∧ (fitSummariesInContext [sampleFirst, sampleLarger, sampleSmaller] ""
          none 4030 .date).totalTokens = 17
      ∧ (fitSummariesInContext [sampleFirst, sampleLarger, sampleSmaller] ""
          none 4030 .date).maxTokens = 30
      ∧ estimateTokenCount sampleLarger.content
          + estimateTokenCount sampleSmaller.content
          ≤ (fitSummariesInContext [sampleFirst, sampleLarger, sampleSmaller]
              "" none 4030 .date).maxTokens
      ∧ (fitSummariesInContext [sampleFirst, sampleLarger, sampleSmaller] ""
          none 4030 .date).totalTokens
          < estimateTokenCount sampleLarger.content
            + estimateTokenCount sampleSmaller.content) := by
  constructor
  · intro summaries promptText model maxContextTokens strategy
    constructor
    · simp only [fitSummariesInContext]
      exact fitLoop_included_sublist _ _ _
    · simp only [fitSummariesInContext]
      exact fitLoop_excluded_sublist _ _ _
  · decide

/-- C5: with a selected model, `maxAvailableTokens` equals
`min(maxContextTokens, modelContextWindow) - promptTokens - outputReserve`
with `outputReserve = 4000` and `promptTokens = estimate(promptText)`, and
the value can be negative. -/
theorem fit_maxTokens_formula :
    (∀ (summaries : List Summary) (promptText : String) (m : ModelInfo)
        (maxContextTokens : Int) (strategy : SortStrategy),
      (fitSummariesInContext summaries promptText (some m) maxContextTokens
          strategy).maxTokens
        = min maxContextTokens m.contextWindow
            - estimateTokenCount promptText - 4000
      ∧ (fitSummariesInContext summaries promptText (some m) maxContextTokens
          strategy).promptTokens = estimateTokenCount promptText)
    ∧ (fitSummariesInContext [] "" (some ⟨100⟩) 100 .date).maxTokens < 0 := by
  refine ⟨?_, by decide⟩
  intro summaries promptText m maxContextTokens strategy
  constructor
  · simp only [fitSummariesInContext, outputReserve]
    rw [min_comm]
  · rfl

/-- C6: `estimateTokenCount text` is exactly `⌈length(text) / 4⌉`, with
`estimate("") = 0`, `estimate("abcd") = 1`, `estimate("abcdefgh") = 2`. -/
theorem estimateTokenCount_spec :
    (∀ text : String,
      estimateTokenCount text = ⌈(text.length : ℚ) / 4⌉)
    ∧ estimateTokenCount "" = 0
    ∧ estimateTokenCount "abcd" = 1
    ∧ estimateTokenCount "abcdefgh" = 2 := by
  refine ⟨?_, by decide, by decide, by decide⟩
  intro text
  unfold estimateTokenCount
  have hA : ((text.length : ℚ)) / 4 ≤ (((text.length + 3) / 4 : ℕ) : ℚ) := by
    rw [div_le_iff₀ (by norm_num : (0:ℚ) < 4)]
    have h : text.length ≤ ((text.length + 3) / 4) * 4 := by omega
    exact_mod_cast h
  have hB : (((text.length + 3) / 4 : ℕ) : ℚ) - 1 < (text.length : ℚ) / 4 := by
    rw [lt_div_iff₀ (by norm_num : (0:ℚ) < 4)]
    have h : ((text.length + 3) / 4) * 4 < text.length + 4 := by omega
    have h4 : ((((text.length + 3) / 4 : ℕ)) : ℚ) * 4
        < (text.length : ℚ) + 4 := by exact_mod_cast h
    linarith
  have h1 : ⌈(text.length : ℚ) / 4⌉ ≤ (((text.length + 3) / 4 : ℕ) : ℤ) :=
    Int.ceil_le.mpr (by exact_mod_cast hA)
  have h2 : (((text.length + 3) / 4 : ℕ) : ℤ) - 1
      < ⌈(text.length : ℚ) / 4⌉ :=
    Int.lt_ceil.mpr (by push_cast; exact hB)
  omega

/-- C7: every candidate lands in exactly one of `included` and `excluded`:
their lengths always add up to the input length. -/
theorem fit_no_summary_dropped_or_duplicated :
    ∀ (summaries : List Summary) (promptText : String)
        (model : Option ModelInfo) (maxContextTokens : Int)
        (strategy : SortStrategy),
      (fitSummariesInContext summaries promptText model maxContextTokens
          strategy).included.length
        + (fitSummariesInContext summaries promptText model maxContextTokens
            strategy).excluded.length
        = summaries.length :=
  fit_lengths_eq

/-- C8: the `date` strategy rearranges the candidates (a permutation) into
descending timestamp order, candidates with equal timestamps staying in
input order (stability, stated via `filter` at each fixed date); on three
candidates dated 2024-01-01, 2024-06-01, 2023-01-01 with budget for one,
the single included candidate is the 2024-06-01 one. -/
theorem fit_date_sort_spec :
    (∀ summaries : List Summary,
      (sortSummaries summaries .date).Perm summaries)
    ∧ (∀ summaries : List Summary,
        (sortSummaries summaries .date).Pairwise
          (fun a b => b.metadata.date ≤ a.metadata.date))
    ∧ (∀ (summaries : List Summary) (d : Int),
        (sortSummaries summaries .date).filter
            (fun s => s.metadata.date == d)
          = summaries.filter (fun s => s.metadata.date == d))
    ∧ (fitSummariesInContext [sampleJan2024, sampleJun2024, sampleJan2023]
        "" none 4010 .date).included = [sampleJun2024] := by
  refine ⟨fun l => sortSummaries_perm l .date, ?_,
    sortSummaries_date_filter, by decide⟩
  intro l
  have h := insertionSortBy_pairwise dateCompareLe dateCompareLe_total
    dateCompareLe_trans l
  show (insertionSortBy dateCompareLe l).Pairwise _
  exact h.imp (fun hab => by
    simp only [dateCompareLe, decide_eq_true_eq] at hab
    omega)

/-- C9: `calculateFitCapacity` reports `canFit` = number of included
candidates, `total` = number of included plus excluded candidates, and
`percentage` = `round(canFit / total * 100)` (100 when `total` is 0). -/
theorem calculateFitCapacity_spec :
    ∀ (summaries : List Summary) (promptText : String)
        (model : Option ModelInfo) (maxContextTokens : Int),
      (calculateFitCapacity summaries promptText model
          maxContextTokens).canFit
        = (fitSummariesInContext summaries promptText model maxContextTokens
            .date).included.length
      ∧ (calculateFitCapacity summaries promptText model
          maxContextTokens).total
        = (fitSummariesInContext summaries promptText model maxContextTokens
              .date).included.length
          + (fitSummariesInContext summaries promptText model maxContextTokens
              .date).excluded.length
      ∧ (calculateFitCapacity summaries promptText model
          maxContextTokens).percentage
        = (if 0 < (fitSummariesInContext summaries promptText model
              maxContextTokens .date).included.length
            + (fitSummariesInContext summaries promptText model
                maxContextTokens .date).excluded.length then
            round (((fitSummariesInContext summaries promptText model
                maxContextTokens .date).included.length : ℚ)
              / (((fitSummariesInContext summaries promptText model
                    maxContextTokens .date).included.length
                  + (fitSummariesInContext summaries promptText model
                      maxContextTokens .date).excluded.length : ℕ) : ℚ)
              * 100)
          else 100) := by
  intro summaries promptText model maxContextTokens
  have h := fit_lengths_eq summaries promptText model maxContextTokens .date
  refine ⟨rfl, h.symm, ?_⟩
  simp only [calculateFitCapacity]
  rw [← h]

end ZoteroLM
